import Mathlib

/-!
Shallow embedding of the data-access layer of `src/app.py` (a small
SQLite-backed book catalog): the table row type, the seed data, and the
five store operations `init_db`, `add_book`, `update_read_status`,
`load_books` and `get_totals`, together with the SQLite `LIKE` matching
semantics used by the search filter.
-/

/-- One row of the `books` table: `id INTEGER PRIMARY KEY AUTOINCREMENT`,
`title TEXT`, `author TEXT`, `genre TEXT`, `year INTEGER`,
`is_read INTEGER` (always 0 or 1 in this program, so modelled as `Bool`). -/
structure Book where
  id : Nat
  title : String
  author : String
  genre : String
  year : Int
  is_read : Bool
deriving DecidableEq, Repr

/-- The database state: the list of rows of `books` in rowid order, plus the
next value of the AUTOINCREMENT counter. -/
structure Store where
  books : List Book
  nextId : Nat
deriving DecidableEq, Repr

/-- ASCII-only lower-casing, as used by SQLite's default `LIKE`: only the
letters A-Z fold; everything else (including Cyrillic) is left unchanged. -/
def lowerAscii (c : Char) : Char :=
  if 'A' ≤ c ∧ c ≤ 'Z' then Char.ofNat (c.toNat + 32) else c

/-- Whitespace characters removed by Python's `str.strip()` (the ASCII ones;
the program only ever strips form input and query strings). -/
def isPySpace (c : Char) : Bool :=
  c = ' ' || c = '\t' || c = '\n' || c = '\r' || c = '\x0b' || c = '\x0c'

/-- Embedding of Python's `s.strip()`: drop leading and trailing whitespace. -/
def pyStrip (s : String) : String :=
  ⟨((s.data.dropWhile isPySpace).reverse.dropWhile isPySpace).reverse⟩

/-- SQLite `LIKE` (no ESCAPE clause): `%` matches any sequence of characters
(realised here by trying every suffix of the remaining string), `_` matches
exactly one character, and any other pattern character matches a single
character up to ASCII case folding. `likeMatch pat s` is `value s LIKE pat`. -/
def likeMatch : List Char → List Char → Bool
  | [], s => s.isEmpty
  | p :: ps, s =>
    if p = '%' then
      s.tails.any fun t => likeMatch ps t
    else
      match s with
      | [] => false
      | c :: cs => (if p = '_' then true else lowerAscii p == lowerAscii c) && likeMatch ps cs

/-- The fixed sample rows inserted by `init_db` into an empty table, with the
AUTOINCREMENT ids 1..5 they receive. -/
def sampleBooks : List Book :=
  [⟨1, "Под игото", "Иван Вазов", "Класика", 1894, true⟩,
   ⟨2, "Тютюн", "Димитър Димов", "Роман", 1951, false⟩,
   ⟨3, "Железният светилник", "Димитър Талев", "Исторически", 1952, false⟩,
   ⟨4, "Бай Ганьо", "Алеко Константинов", "Сатира", 1895, true⟩,
   ⟨5, "Време разделно", "Антон Дончев", "Исторически", 1964, false⟩]

/-- Embedding of `init_db`: create the table if needed and, when it has no
rows, seed it with the fixed sample list; otherwise leave the store alone. -/
def init_db (s : Store) : Store :=
  if s.books.isEmpty then ⟨sampleBooks, 6⟩ else s

/-- Embedding of `add_book`: insert one row with a fresh id, title and author
stripped, and `genre.strip() or "Неизвестен"` for the genre (Python's `or`
substitutes the default exactly when the stripped genre is empty). -/
def add_book (title author genre : String) (year : Int) (is_read : Bool) (s : Store) : Store :=
  ⟨s.books ++
      [⟨s.nextId, pyStrip title, pyStrip author,
        if (pyStrip genre).isEmpty then "Неизвестен" else pyStrip genre,
        year, is_read⟩],
    s.nextId + 1⟩

/-- One `UPDATE books SET is_read = ? WHERE id = ?` statement: set the flag on
every row whose id matches (ids are unique in practice, but the SQL touches
all matches). -/
def setRead (i : Nat) (v : Bool) (books : List Book) : List Book :=
  books.map fun b => if b.id = i then { b with is_read := v } else b

/-- Embedding of `update_read_status`: `executemany` runs the UPDATE once per
(id, value) pair, in list order. -/
def update_read_status (rows : List (Nat × Bool)) (s : Store) : Store :=
  ⟨rows.foldl (fun bs r => setRead r.1 r.2 bs) s.books, s.nextId⟩

/-- The comparison realising `ORDER BY year DESC, title ASC` (SQLite's BINARY
collation on TEXT is UTF-8 byte order, which is codepoint order, which is
Lean's `String` order). -/
def bookLE (a b : Book) : Bool :=
  decide (b.year < a.year) || (decide (a.year = b.year) && decide (a.title ≤ b.title))

/-- The WHERE clauses of `load_books`, conjoined: a
`(title LIKE pat OR author LIKE pat)` clause with `pat = "%" + query.strip()
+ "%"` added only when the query string is non-empty (Python truthiness), and
an `is_read = 0` clause added only when `unread_only`. -/
def rowFilter (search_query : String) (unread_only : Bool) (b : Book) : Bool :=
  (if search_query.isEmpty then true
   else
     likeMatch ('%' :: ((pyStrip search_query).data ++ ['%'])) b.title.data ||
     likeMatch ('%' :: ((pyStrip search_query).data ++ ['%'])) b.author.data) &&
  (if unread_only then !b.is_read else true)

/-- Embedding of `load_books`: keep the rows passing the WHERE clauses, then
sort by year descending, title ascending (`ORDER BY year DESC, title ASC`). -/
def load_books (search_query : String) (unread_only : Bool) (s : Store) : List Book :=
  (s.books.filter (rowFilter search_query unread_only)).mergeSort bookLE

/-- Embedding of `get_totals`: `total = COUNT(*)`, `read = SUM(is_read)`. The
source computes `progress = int((read / total) * 100) if total else 0` in
Python IEEE-754 double arithmetic; this definition idealises that expression
as the exact truncated percentage `read * 100 / total` (the two differ, see
`pythonProgress` below for the faithful double-precision model). -/
def get_totals (s : Store) : Nat × Nat × Nat :=
  (s.books.length, (s.books.filter fun b => b.is_read).length,
    if s.books.length = 0 then 0
    else (s.books.filter fun b => b.is_read).length * 100 / s.books.length)

/-- Decidable ASCII-case-insensitive substring test: the folded needle is a
contiguous run of the folded haystack. -/
def ciSubstr (needle hay : String) : Bool :=
  (hay.data.map lowerAscii).tails.any fun t => (needle.data.map lowerAscii).isPrefixOf t

/-- A pattern fragment with no `LIKE` wildcard characters. -/
def noWildcards (w : List Char) : Bool :=
  w.all fun c => !(c = '%' || c = '_')

/-- The value assigned to id `i` by the LAST pair of `rows` that targets `i`,
if any (later UPDATE statements overwrite earlier ones). -/
def lastValue : List (Nat × Bool) → Nat → Option Bool
  | [], _ => none
  | p :: ps, i =>
    match lastValue ps i with
    | some v => some v
    | none => if p.1 = i then some p.2 else none

/-- The per-row effect of a whole `update_read_status` batch. -/
def applyLast (rows : List (Nat × Bool)) (b : Book) : Book :=
  match lastValue rows b.id with
  | some v => { b with is_read := v }
  | none => b

/-- Floor of the base-two logarithm of a positive natural number, computed
with structural fuel so that the kernel can evaluate it. -/
def log2Fuel : Nat → Nat → Nat
  | 0, _ => 0
  | fuel + 1, n => if n < 2 then 0 else log2Fuel fuel (n / 2) + 1

/-- Floor of the base-two logarithm of a positive natural number. -/
def lg2 (n : Nat) : Nat :=
  log2Fuel n n

/-- Whether `2 ^ k ≤ a / b` for naturals `a`, `b > 0` and an integer `k`. -/
def le2pow (k : Int) (a b : Nat) : Bool :=
  if 0 ≤ k then b * 2 ^ k.toNat ≤ a else b ≤ a * 2 ^ (-k).toNat

/-- Floor of the base-two logarithm of the positive rational `a / b`: the
unique `k` with `2 ^ k ≤ a / b < 2 ^ (k + 1)`, located next to
`lg2 a - lg2 b`. -/
def floorLog2Rat (a b : Nat) : Int :=
  if le2pow ((lg2 a : Int) - (lg2 b : Int) + 1) a b then (lg2 a : Int) - (lg2 b : Int) + 1
  else if le2pow ((lg2 a : Int) - (lg2 b : Int)) a b then (lg2 a : Int) - (lg2 b : Int)
  else (lg2 a : Int) - (lg2 b : Int) - 1

/-- Round the nonnegative rational `num / den` to the nearest integer, ties
to even (the IEEE-754 default rounding). -/
def roundHalfEven (num den : Nat) : Nat :=
  if 2 * (num % den) < den then num / den
  else if den < 2 * (num % den) then num / den + 1
  else if num / den % 2 = 0 then num / den else num / den + 1

/-- Round the nonnegative rational `a / b` (with `b > 0`) to the nearest
IEEE-754 binary64 value, returned as a significand-exponent pair `(m, e)`
denoting `m * 2 ^ e` with `2 ^ 52 ≤ m ≤ 2 ^ 53` for `a ≠ 0` (normal range;
the program only ever divides small row counts, far from sub-normals or
overflow). This models Python's true division `read / total`. -/
def roundRatToDouble (a b : Nat) : Nat × Int :=
  if a = 0 then (0, 0)
  else
    if 0 ≤ floorLog2Rat a b - 52 then
      (roundHalfEven a (b * 2 ^ (floorLog2Rat a b - 52).toNat), floorLog2Rat a b - 52)
    else
      (roundHalfEven (a * 2 ^ (-(floorLog2Rat a b - 52)).toNat) b, floorLog2Rat a b - 52)

/-- Round the exact value `p * 2 ^ e` (`p : Nat`) back to 53 significant
bits, as an IEEE-754 binary64 multiplication must. -/
def roundNatShifted (p : Nat) (e : Int) : Nat × Int :=
  if p < 2 ^ 53 then (p, e)
  else (roundHalfEven p (2 ^ (lg2 p - 52)), e + (lg2 p - 52 : Nat))

/-- Truncate the nonnegative double `m * 2 ^ e` to an integer, as Python's
`int(...)` does. -/
def truncPair : Nat × Int → Nat
  | (m, e) => if 0 ≤ e then m * 2 ^ e.toNat else m / 2 ^ (-e).toNat

/-- Faithful model of the source line
`progress = int((read / total) * 100) if total else 0`: the true division
`read / total` rounds to the nearest binary64, the multiplication by the
exactly-representable 100 rounds the exact product back to 53 bits, and
`int` truncates. -/
def pythonProgress (read total : Nat) : Nat :=
  if total = 0 then 0
  else truncPair (roundNatShifted ((roundRatToDouble read total).1 * 100)
    (roundRatToDouble read total).2)

/-! ## Lemmas about the `LIKE` matcher -/

/-- Unfolding of the wildcard-freeness check. -/
theorem noWildcards_iff {w : List Char} :
    noWildcards w = true ↔ ∀ c ∈ w, c ≠ '%' ∧ c ≠ '_' := by
  simp [noWildcards, not_or]

/-- A leading `%` matches exactly when the rest of the pattern matches some
suffix of the string. -/
theorem likeMatch_percent {ps s : List Char} :
    likeMatch ('%' :: ps) s = true ↔ ∃ t, t <:+ s ∧ likeMatch ps t = true := by
  simp [likeMatch, List.any_eq_true, List.mem_tails]

/-- The pattern `%%` (the one built from a blank search query) matches every
string. -/
theorem likeMatch_percent_percent (s : List Char) :
    likeMatch ['%', '%'] s = true := by
  refine likeMatch_percent.mpr ⟨[], List.nil_suffix, ?_⟩
  exact likeMatch_percent.mpr ⟨[], List.nil_suffix, rfl⟩

/-- A wildcard-free pattern followed by `%` matches exactly the strings whose
ASCII-folded form starts with the folded pattern. -/
theorem likeMatch_plain {w : List Char} (hw : ∀ c ∈ w, c ≠ '%' ∧ c ≠ '_')
    {s : List Char} :
    likeMatch (w ++ ['%']) s = true ↔ (w.map lowerAscii) <+: (s.map lowerAscii) := by
  induction w generalizing s with
  | nil =>
    simp only [List.nil_append, List.map_nil]
    exact ⟨fun _ => List.nil_prefix, fun _ => likeMatch_percent.mpr ⟨[], List.nil_suffix, rfl⟩⟩
  | cons c w ih =>
    obtain ⟨hc1, hc2⟩ := hw c (by simp)
    have hw' : ∀ x ∈ w, x ≠ '%' ∧ x ≠ '_' := fun x hx => hw x (by simp [hx])
    cases s with
    | nil =>
      simp [List.cons_append, likeMatch, if_neg hc1]
    | cons d s =>
      simp only [List.cons_append, likeMatch, if_neg hc1, if_neg hc2, List.map_cons,
        Bool.and_eq_true, beq_iff_eq, List.cons_prefix_cons]
      exact and_congr Iff.rfl (ih hw')

/-- Soundness of the search pattern: when the trimmed query `w` has no
wildcards, any string matched by `%w%` contains `w` as an ASCII-case-
insensitive substring. -/
theorem likeMatch_sound {w s : List Char} (hw : ∀ c ∈ w, c ≠ '%' ∧ c ≠ '_')
    (h : likeMatch ('%' :: (w ++ ['%'])) s = true) :
    (w.map lowerAscii) <:+: (s.map lowerAscii) := by
  obtain ⟨t, hts, hm⟩ := likeMatch_percent.mp h
  exact List.infix_iff_prefix_suffix.mpr
    ⟨t.map lowerAscii, (likeMatch_plain hw).mp hm, List.IsSuffix.map lowerAscii hts⟩

/-- The decidable substring test agrees with the infix relation on folded
character lists. -/
theorem ciSubstr_iff {needle hay : String} :
    ciSubstr needle hay = true ↔
      (needle.data.map lowerAscii) <:+: (hay.data.map lowerAscii) := by
  simp only [ciSubstr, List.any_eq_true, List.mem_tails]
  rw [List.infix_iff_prefix_suffix]
  constructor
  · rintro ⟨t, h1, h2⟩
    exact ⟨t, by simpa using h2, h1⟩
  · rintro ⟨t, h1, h2⟩
    exact ⟨t, h2, by simpa using h1⟩

/-! ## Lemmas about `load_books` -/

/-- Membership in a `load_books` result is membership in the table plus the
WHERE clauses, since sorting permutes the filtered rows. -/
theorem mem_load_books {q : String} {u : Bool} {s : Store} {b : Book} :
    b ∈ load_books q u s ↔ b ∈ s.books ∧ rowFilter q u b = true := by
  rw [load_books]
  simp [List.mem_filter]

/-! ## C1, C6, C8, C10: the WHERE clauses of `load_books` -/

/-- C1 (amended): for every query whose trimmed form is free of the `LIKE`
wildcards `%` and `_`, every record returned by `load_books` has the trimmed
query as an ASCII-case-insensitive substring of its title or of its author. -/
theorem C1_search_match_soundness (q : String) (u : Bool) (s : Store) (b : Book)
    (hb : b ∈ load_books q u s) (hw : noWildcards (pyStrip q).data = true) :
    ciSubstr (pyStrip q) b.title = true ∨ ciSubstr (pyStrip q) b.author = true := by
  obtain ⟨-, hf⟩ := mem_load_books.mp hb
  rw [rowFilter, Bool.and_eq_true] at hf
  obtain ⟨hsearch, -⟩ := hf
  by_cases hq : q.isEmpty
  · have hqe : q = "" := (String.isEmpty_iff q).mp hq
    subst hqe
    left
    rw [ciSubstr_iff]
    exact List.nil_infix
  · rw [if_neg hq, Bool.or_eq_true] at hsearch
    rcases hsearch with h | h
    · exact Or.inl (ciSubstr_iff.mpr (likeMatch_sound (noWildcards_iff.mp hw) h))
    · exact Or.inr (ciSubstr_iff.mpr (likeMatch_sound (noWildcards_iff.mp hw) h))

/-- Witness for C1 at a concrete store, query "tIt", record ("Title","Author"). -/
theorem C1_search_match_soundness_witness :
    ciSubstr (pyStrip "tIt") "Title" = true ∨ ciSubstr (pyStrip "tIt") "Author" = true := by
  have hb : (⟨1, "Title", "Author", "Novel", 2024, false⟩ : Book) ∈
      load_books "tIt" false ⟨[⟨1, "Title", "Author", "Novel", 2024, false⟩], 2⟩ :=
    mem_load_books.mpr (by decide)
  exact C1_search_match_soundness "tIt" false _ _ hb (by decide)

/-- Counterexample to C1 as stated: the whitespace query " " returns a record
although " " is a case-insensitive substring of neither the title nor the
author — the code strips the query before building the pattern, so the
pattern degenerates to `%%` and matches every row. -/
theorem C1_counterexample :
    (⟨1, "Title", "Author", "Novel", 2024, false⟩ : Book) ∈
      load_books " " false ⟨[⟨1, "Title", "Author", "Novel", 2024, false⟩], 2⟩ ∧
    ciSubstr " " "Title" = false ∧ ciSubstr " " "Author" = false :=
  ⟨mem_load_books.mpr (by decide), by decide, by decide⟩

/-- C6: every record returned with the unread filter on is unread. -/
theorem C6_unread_only (q : String) (s : Store) (b : Book)
    (hb : b ∈ load_books q true s) : b.is_read = false := by
  obtain ⟨-, hf⟩ := mem_load_books.mp hb
  rw [rowFilter, Bool.and_eq_true] at hf
  simpa using hf.2

/-- Witness for C6: the sole (unread) record of a concrete store. -/
theorem C6_unread_only_witness :
    (⟨1, "T", "A", "G", 2000, false⟩ : Book).is_read = false :=
  C6_unread_only "" ⟨[⟨1, "T", "A", "G", 2000, false⟩], 2⟩ _ (mem_load_books.mpr (by decide))

/-- C8: with an empty search query, every record passing the unread filter is
returned — no record is omitted. -/
theorem C8_no_query_returns_all (u : Bool) (s : Store) (b : Book)
    (hmem : b ∈ s.books) (hu : u = true → b.is_read = false) :
    b ∈ load_books "" u s := by
  refine mem_load_books.mpr ⟨hmem, ?_⟩
  rw [rowFilter]
  have he : "".isEmpty = true := rfl
  cases u with
  | false => simp [he]
  | true => simp [he, hu rfl]

/-- Witness for C8: an unread record of a concrete store is returned. -/
theorem C8_no_query_returns_all_witness :
    (⟨1, "T", "A", "G", 2000, false⟩ : Book) ∈
      load_books "" true ⟨[⟨1, "T", "A", "G", 2000, false⟩], 2⟩ :=
  C8_no_query_returns_all true _ _ (by decide) (fun _ => rfl)

/-- C10: a query that trims to the empty string (in particular a whitespace-
only query) behaves exactly like the empty query: same records, same order. -/
theorem C10_whitespace_query_trimmed (q : String) (u : Bool) (s : Store)
    (h : pyStrip q = "") : load_books q u s = load_books "" u s := by
  rw [load_books, load_books]
  congr 1
  apply List.filter_congr
  intro b _
  rw [rowFilter, rowFilter]
  by_cases hq : q.isEmpty
  · have hqe : q = "" := (String.isEmpty_iff q).mp hq
    rw [hqe]
  · rw [if_neg hq]
    have hd : (pyStrip q).data = [] := by rw [h]
    rw [hd]
    have he : "".isEmpty = true := rfl
    simp [he, likeMatch_percent_percent]

/-- Witness for C10: the single-space query on the seeded store. -/
theorem C10_whitespace_query_trimmed_witness :
    load_books " " false ⟨sampleBooks, 6⟩ = load_books "" false ⟨sampleBooks, 6⟩ :=
  C10_whitespace_query_trimmed " " false ⟨sampleBooks, 6⟩ rfl

/-! ## C2: the ORDER BY comparison -/

/-- Transitivity of the `ORDER BY year DESC, title ASC` comparison. -/
theorem bookLE_trans (a b c : Book) (h1 : bookLE a b = true) (h2 : bookLE b c = true) :
    bookLE a c = true := by
  simp only [bookLE, Bool.or_eq_true, Bool.and_eq_true, decide_eq_true_eq] at h1 h2 ⊢
  rcases h1 with h1 | ⟨h1, h1t⟩ <;> rcases h2 with h2 | ⟨h2, h2t⟩
  · exact Or.inl (by omega)
  · exact Or.inl (by omega)
  · exact Or.inl (by omega)
  · exact Or.inr ⟨by omega, le_trans h1t h2t⟩

/-- Totality of the `ORDER BY year DESC, title ASC` comparison. -/
theorem bookLE_total (a b : Book) : (bookLE a b || bookLE b a) = true := by
  simp only [bookLE, Bool.or_eq_true, Bool.and_eq_true, decide_eq_true_eq]
  rcases lt_trichotomy a.year b.year with h | h | h
  · exact Or.inr (Or.inl h)
  · rcases le_total a.title b.title with ht | ht
    · exact Or.inl (Or.inr ⟨h, ht⟩)
    · exact Or.inr (Or.inr ⟨h.symm, ht⟩)
  · exact Or.inl (Or.inl h)

/-- C2: in every `load_books` result, for any record A listed before a record
B, either A's year is strictly larger, or the years are equal and A's title
is lexicographically at most B's. -/
theorem C2_load_books_ordering (q : String) (u : Bool) (s : Store) :
    (load_books q u s).Pairwise fun a b =>
      b.year < a.year ∨ (a.year = b.year ∧ a.title ≤ b.title) := by
  rw [load_books]
  have h := List.sorted_mergeSort bookLE_trans bookLE_total
    (s.books.filter (rowFilter q u))
  exact h.imp fun hab => by
    simpa only [bookLE, Bool.or_eq_true, Bool.and_eq_true, decide_eq_true_eq] using hab

/-! ## C4, C9: `update_read_status` -/

/-- Ids never targeted by the batch receive no value. -/
theorem lastValue_eq_none {rows : List (Nat × Bool)} {i : Nat}
    (h : i ∉ rows.map Prod.fst) : lastValue rows i = none := by
  induction rows with
  | nil => rfl
  | cons p ps ih =>
    simp only [List.map_cons, List.mem_cons, not_or] at h
    rw [lastValue, ih h.2]
    have hne : ¬p.1 = i := fun hp => h.1 hp.symm
    simp [hne]

/-- A value assigned to id `i` comes from some pair of the batch. -/
theorem lastValue_mem {rows : List (Nat × Bool)} {i : Nat} {v : Bool}
    (h : lastValue rows i = some v) : i ∈ rows.map Prod.fst := by
  induction rows generalizing v with
  | nil => exact absurd h (by simp [lastValue])
  | cons p ps ih =>
    rw [lastValue] at h
    rcases hv : lastValue ps i with - | w
    · rw [hv] at h
      simp only [List.map_cons, List.mem_cons]
      by_cases hp : p.1 = i
      · exact Or.inl hp.symm
      · rw [if_neg hp] at h
        exact absurd h (by simp)
    · simp only [List.map_cons, List.mem_cons]
      exact Or.inr (ih hv)

/-- One UPDATE statement followed by the rest of the batch acts on a row like
the whole batch. -/
theorem applyLast_setRead_step (p : Nat × Bool) (ps : List (Nat × Bool)) (b : Book) :
    applyLast ps (if b.id = p.1 then { b with is_read := p.2 } else b) =
      applyLast (p :: ps) b := by
  rcases b with ⟨i, ti, au, ge, ye, ir⟩
  by_cases hp : i = p.1
  · simp only [applyLast, lastValue, hp, if_pos rfl]
    rcases hv : lastValue ps p.1 with - | w <;> simp [hv]
  · have hne : ¬p.1 = i := fun hq => hp hq.symm
    simp only [applyLast, lastValue, if_neg hp, if_neg hne]
    rcases hv : lastValue ps i with - | w <;> simp [hv]

/-- The whole `update_read_status` batch is the per-row function `applyLast`
mapped over the table. -/
theorem update_books_eq_map (rows : List (Nat × Bool)) (l : List Book) :
    rows.foldl (fun bs r => setRead r.1 r.2 bs) l = l.map (applyLast rows) := by
  induction rows generalizing l with
  | nil =>
    simp only [List.foldl_nil]
    exact ((List.map_congr_left (fun b _ => rfl : ∀ b ∈ l, applyLast [] b = b)).trans
      (List.map_id' l)).symm
  | cons p ps ih =>
    rw [List.foldl_cons, ih, setRead, List.map_map]
    exact List.map_congr_left fun b _ => applyLast_setRead_step p ps b

/-- A batch changes no field of a row other than possibly `is_read`. -/
theorem applyLast_id (rows : List (Nat × Bool)) (b : Book) :
    (applyLast rows b).id = b.id := by
  rw [applyLast]; rcases lastValue rows b.id with - | v <;> rfl

/-- A batch leaves every title unchanged. -/
theorem applyLast_title (rows : List (Nat × Bool)) (b : Book) :
    (applyLast rows b).title = b.title := by
  rw [applyLast]; rcases lastValue rows b.id with - | v <;> rfl

/-- A batch leaves every author unchanged. -/
theorem applyLast_author (rows : List (Nat × Bool)) (b : Book) :
    (applyLast rows b).author = b.author := by
  rw [applyLast]; rcases lastValue rows b.id with - | v <;> rfl

/-- A batch leaves every genre unchanged. -/
theorem applyLast_genre (rows : List (Nat × Bool)) (b : Book) :
    (applyLast rows b).genre = b.genre := by
  rw [applyLast]; rcases lastValue rows b.id with - | v <;> rfl

/-- A batch leaves every year unchanged. -/
theorem applyLast_year (rows : List (Nat × Bool)) (b : Book) :
    (applyLast rows b).year = b.year := by
  rw [applyLast]; rcases lastValue rows b.id with - | v <;> rfl

/-- A row whose id the batch does not mention keeps its `is_read` flag. -/
theorem applyLast_is_read_of_not_mem {rows : List (Nat × Bool)} {b : Book}
    (h : b.id ∉ rows.map Prod.fst) : (applyLast rows b).is_read = b.is_read := by
  rw [applyLast, lastValue_eq_none h]

/-- A row whose id the batch never mentions is completely unchanged. -/
theorem applyLast_of_not_mem {rows : List (Nat × Bool)} {b : Book}
    (h : b.id ∉ rows.map Prod.fst) : applyLast rows b = b := by
  rw [applyLast, lastValue_eq_none h]

/-- The per-row batch effect is idempotent. -/
theorem applyLast_idem (rows : List (Nat × Bool)) (b : Book) :
    applyLast rows (applyLast rows b) = applyLast rows b := by
  rcases b with ⟨i, ti, au, ge, ye, ir⟩
  rcases hv : lastValue rows i with - | w <;> simp [applyLast, hv]

/-- C4: a batch preserves the row count and, at every position, the id,
title, author, genre and year; a row whose id is not targeted is wholly
unchanged; a batch whose ids match no record at all is a silent no-op. -/
theorem C4_bulk_update_frame (rows : List (Nat × Bool)) (s : Store) :
    (update_read_status rows s).nextId = s.nextId ∧
    (update_read_status rows s).books.length = s.books.length ∧
    (∀ i : Nat,
      (update_read_status rows s).books[i]?.map Book.id = s.books[i]?.map Book.id ∧
      (update_read_status rows s).books[i]?.map Book.title = s.books[i]?.map Book.title ∧
      (update_read_status rows s).books[i]?.map Book.author = s.books[i]?.map Book.author ∧
      (update_read_status rows s).books[i]?.map Book.genre = s.books[i]?.map Book.genre ∧
      (update_read_status rows s).books[i]?.map Book.year = s.books[i]?.map Book.year) ∧
    (∀ (i : Nat) (b : Book), s.books[i]? = some b → b.id ∉ rows.map Prod.fst →
      (update_read_status rows s).books[i]? = some b) ∧
    ((∀ p ∈ rows, p.1 ∉ s.books.map Book.id) → update_read_status rows s = s) := by
  have hbooks : (update_read_status rows s).books = s.books.map (applyLast rows) :=
    update_books_eq_map rows s.books
  refine ⟨rfl, ?_, ?_, ?_, ?_⟩
  · rw [hbooks, List.length_map]
  · intro i
    rw [hbooks, List.getElem?_map]
    rcases hv : s.books[i]? with - | b
    · simp
    · simp [applyLast_id, applyLast_title, applyLast_author, applyLast_genre, applyLast_year]
  · intro i b hb hmem
    rw [hbooks, List.getElem?_map, hb]
    simp [applyLast_of_not_mem hmem]
  · intro hids
    have hfix : ∀ b ∈ s.books, applyLast rows b = b := by
      intro b hb
      apply applyLast_of_not_mem
      intro hmem
      obtain ⟨p, hp, hpe⟩ := List.mem_map.mp hmem
      exact hids p hp (by rw [hpe]; exact List.mem_map_of_mem Book.id hb)
    cases s with
    | mk books nextId =>
      simp only [update_read_status, Store.mk.injEq]
      refine ⟨?_, trivial⟩
      rw [update_books_eq_map]
      exact (List.map_congr_left hfix).trans (List.map_id' books)

/-- Witness for C4: updating id 1 keeps the title at position 0. -/
theorem C4_bulk_update_frame_witness :
    (update_read_status [(1, true)] ⟨[⟨1, "T", "A", "G", 2000, false⟩], 2⟩).books[0]?.map
      Book.title = some "T" := by
  have h := (C4_bulk_update_frame [(1, true)] ⟨[⟨1, "T", "A", "G", 2000, false⟩], 2⟩).2.2.1 0
  rw [h.2.1]
  rfl

/-- C9: applying the same batch of (id, value) pairs twice in succession
yields the same store as applying it once. -/
theorem C9_update_idempotent (rows : List (Nat × Bool)) (s : Store) :
    update_read_status rows (update_read_status rows s) = update_read_status rows s := by
  cases s with
  | mk books nextId =>
    simp only [update_read_status, Store.mk.injEq]
    refine ⟨?_, trivial⟩
    rw [update_books_eq_map, update_books_eq_map, List.map_map]
    exact List.map_congr_left fun b _ => applyLast_idem rows b

/-! ## C5: `init_db` -/

/-- C5: initialising an empty store seeds exactly the fixed sample records;
initialising a non-empty store changes nothing; `init_db` is idempotent. -/
theorem C5_init_db_seeds_once (s : Store) :
    (s.books = [] → init_db s = ⟨sampleBooks, 6⟩) ∧
    (s.books ≠ [] → init_db s = s) ∧
    init_db (init_db s) = init_db s := by
  refine ⟨?_, ?_, ?_⟩
  · intro h
    rw [init_db, if_pos (by simp [h])]
  · intro h
    rw [init_db, if_neg (by simpa using h)]
  · by_cases h : s.books.isEmpty
    · have h1 : init_db s = ⟨sampleBooks, 6⟩ := by rw [init_db, if_pos h]
      rw [h1, init_db, if_neg (by decide)]
    · have h1 : init_db s = s := by rw [init_db, if_neg h]
      rw [h1]
      exact h1

/-- Witness for C5: the empty store is seeded with the sample records. -/
theorem C5_init_db_seeds_once_witness :
    init_db ⟨[], 1⟩ = ⟨sampleBooks, 6⟩ :=
  (C5_init_db_seeds_once ⟨[], 1⟩).1 rfl

/-! ## C7: `add_book` -/

/-- C7: the stored record carries the trimmed title and author and a
never-empty genre, with the sentinel substituted exactly when the trimmed
genre is blank. -/
theorem C7_add_book_fields (title author genre : String) (year : Int) (is_read : Bool)
    (s : Store) :
    ∃ b : Book, (add_book title author genre year is_read s).books = s.books ++ [b] ∧
      b.title = pyStrip title ∧ b.author = pyStrip author ∧
      (pyStrip genre = "" → b.genre = "Неизвестен") ∧
      b.genre ≠ "" ∧ b.year = year ∧ b.is_read = is_read := by
  refine ⟨⟨s.nextId, pyStrip title, pyStrip author,
    if (pyStrip genre).isEmpty then "Неизвестен" else pyStrip genre,
    year, is_read⟩, rfl, rfl, rfl, ?_, ?_, rfl, rfl⟩
  · intro h
    have hg : (pyStrip genre).isEmpty = true := by rw [h]; rfl
    show (if (pyStrip genre).isEmpty then "Неизвестен" else pyStrip genre) = "Неизвестен"
    rw [if_pos hg]
  · show (if (pyStrip genre).isEmpty then "Неизвестен" else pyStrip genre) ≠ ""
    by_cases hg : (pyStrip genre).isEmpty
    · rw [if_pos hg]
      decide
    · rw [if_neg hg]
      exact fun he => hg (by rw [he]; rfl)

/-- Witness for C7: the spec's example — adding ("Title","Author","",2024,
false) stores the sentinel genre, not the empty string. -/
theorem C7_add_book_fields_witness :
    ∃ b : Book, (add_book "Title" "Author" "" 2024 false ⟨[], 1⟩).books = [] ++ [b] ∧
      b.genre = "Неизвестен" := by
  obtain ⟨b, h1, -, -, h4, -, -, -⟩ := C7_add_book_fields "Title" "Author" "" 2024 false ⟨[], 1⟩
  exact ⟨b, h1, h4 rfl⟩

/-! ## C3: `get_totals` and the floating-point progress value -/

/-- C3 (code bug): on a store of 100 records of which 29 are read, the
claimed value `floor(read/total*100)` is 29 — as the idealised `get_totals`
returns — but the source's IEEE-754 double computation
`int((read / total) * 100)` yields 28, because `(29 / 100) * 100` evaluates
to `28.999999999999996` in binary64. The spec's own example (5 records, 2
read, progress 40) is unaffected: there the double computation agrees. -/
theorem C3_totals_progress_code_bug :
    get_totals ⟨(List.range 100).map (fun i => ⟨i + 1, "T", "A", "G", 2000, decide (i < 29)⟩),
        101⟩ = (100, 29, 29) ∧
    pythonProgress 29 100 = 28 ∧
    get_totals ⟨sampleBooks, 6⟩ = (5, 2, 40) ∧
    pythonProgress 2 5 = 40 :=
  ⟨by decide, by decide, by decide, by decide⟩
